import Mathlib

/-!
Verification of the editor-chrome components of this repository:
the TypeScript extension's DiagnosticsManager and TagClosing assistant,
and the breadcrumbs file picker.  Each definition is a shallow embedding
of the corresponding source function; theorems settle the specification
claims about them.
-/

/-! ## DiagnosticsManager (extensions/typescript/src/features/diagnostics.ts) -/

/-- Modelled from the spec: the presentation sink is keyed by "a URI derived
from `file`" (the external client's `asUrl`, which wraps the file path into a
`vscode.Uri`; the client itself is outside the excerpt).  We model the URI as
an injective wrapper of the path string. -/
structure Uri where
  path : String
deriving DecidableEq

/-- Modelled from the spec: the URI derived from a file path. -/
def asUrl (file : String) : Uri := ⟨file⟩

/-- State of a `DiagnosticsManager`: the two per-file mappings, the published
diagnostic collection (the presentation sink, keyed by URI) and the
`_validate` flag.  `D` is the type of a single diagnostic. -/
structure DiagState (D : Type) where
  syntaxDiagnostics : String → Option (List D)
  semanticDiagnostics : String → Option (List D)
  currentDiagnostics : Uri → Option (List D)
  validate : Bool

/-- Freshly constructed manager: empty mappings, empty collection,
`_validate = true`. -/
def initDiagState (D : Type) : DiagState D :=
  { syntaxDiagnostics := fun _ => none
    semanticDiagnostics := fun _ => none
    currentDiagnostics := fun _ => none
    validate := true }

/-- `DiagnosticsManager.reInitialize`. -/
def DiagState.reInitialize {D : Type} (s : DiagState D) : DiagState D :=
  { s with currentDiagnostics := fun _ => none
           syntaxDiagnostics := fun _ => none
           semanticDiagnostics := fun _ => none }

/-- `DiagnosticsManager.updateValidate`. -/
def DiagState.updateValidate {D : Type} (s : DiagState D) (value : Bool) : DiagState D :=
  if s.validate = value then s
  else
    let s1 := { s with validate := value }
    if value then s1
    else
      { s1 with syntaxDiagnostics := fun _ => none
                semanticDiagnostics := fun _ => none
                currentDiagnostics := fun _ => none }

/-- `DiagnosticsManager.syntaxDiagnosticsReceived`.  (In JS, a stored array is
always truthy, so `this.semanticDiagnostics[file] || []` yields `[]` exactly
when the entry is absent — `Option.getD []`.) -/
def DiagState.syntaxDiagnosticsReceived {D : Type} (s : DiagState D)
    (file : String) (syntaxDiagnostics : List D) : DiagState D :=
  if s.validate then
    let semanticDianostics := (s.semanticDiagnostics file).getD []
    { s with
        syntaxDiagnostics := fun x =>
          if x = file then some syntaxDiagnostics else s.syntaxDiagnostics x
        currentDiagnostics := fun u =>
          if u = asUrl file then some (semanticDianostics ++ syntaxDiagnostics)
          else s.currentDiagnostics u }
  else s

/-- `DiagnosticsManager.semanticDiagnosticsReceived`. -/
def DiagState.semanticDiagnosticsReceived {D : Type} (s : DiagState D)
    (file : String) (semanticDiagnostics : List D) : DiagState D :=
  if s.validate then
    let syntaxDiagnostics := (s.syntaxDiagnostics file).getD []
    { s with
        semanticDiagnostics := fun x =>
          if x = file then some semanticDiagnostics else s.semanticDiagnostics x
        currentDiagnostics := fun u =>
          if u = asUrl file then some (semanticDiagnostics ++ syntaxDiagnostics)
          else s.currentDiagnostics u }
  else s

/-- `DiagnosticsManager.configFileDiagnosticsReceived` (no validation gate). -/
def DiagState.configFileDiagnosticsReceived {D : Type} (s : DiagState D)
    (file : String) (diagnostics : List D) : DiagState D :=
  { s with currentDiagnostics := fun u =>
      if u = asUrl file then some diagnostics else s.currentDiagnostics u }

/-- `DiagnosticsManager.delete` (no validation gate). -/
def DiagState.delete {D : Type} (s : DiagState D) (file : String) : DiagState D :=
  { s with currentDiagnostics := fun u =>
      if u = asUrl file then none else s.currentDiagnostics u }

/-- An interleaving step: one partial-diagnostics delivery. -/
inductive DiagOp (D : Type) where
  | syntaxR (file : String) (diags : List D)
  | semanticR (file : String) (diags : List D)

/-- Dispatch one delivery to the manager. -/
def stepDiagOp {D : Type} (s : DiagState D) : DiagOp D → DiagState D
  | .syntaxR file d => s.syntaxDiagnosticsReceived file d
  | .semanticR file d => s.semanticDiagnosticsReceived file d

/-- Run an interleaving of deliveries. -/
def runDiagOps {D : Type} (s : DiagState D) (ops : List (DiagOp D)) : DiagState D :=
  ops.foldl stepDiagOp s

/-- The merged-publication invariant for a single file. -/
def DiagInv {D : Type} (f : String) (s : DiagState D) : Prop :=
  (s.currentDiagnostics (asUrl f)).getD [] =
    (s.semanticDiagnostics f).getD [] ++ (s.syntaxDiagnostics f).getD []

theorem diagInv_step {D : Type} (s : DiagState D) (op : DiagOp D)
    (hv : s.validate = true) (h : ∀ f, DiagInv f s) :
    (stepDiagOp s op).validate = true ∧ ∀ f, DiagInv f (stepDiagOp s op) := by
  cases op with
  | syntaxR file d =>
    refine ⟨by simp [stepDiagOp, DiagState.syntaxDiagnosticsReceived, hv], ?_⟩
    intro f
    by_cases hf : f = file
    · subst hf
      simp [stepDiagOp, DiagState.syntaxDiagnosticsReceived, hv, DiagInv]
    · have hu : asUrl f ≠ asUrl file := by
        simpa [asUrl, Uri.mk.injEq] using hf
      simpa [stepDiagOp, DiagState.syntaxDiagnosticsReceived, hv, DiagInv, hf, hu]
        using h f
  | semanticR file d =>
    refine ⟨by simp [stepDiagOp, DiagState.semanticDiagnosticsReceived, hv], ?_⟩
    intro f
    by_cases hf : f = file
    · subst hf
      simp [stepDiagOp, DiagState.semanticDiagnosticsReceived, hv, DiagInv]
    · have hu : asUrl f ≠ asUrl file := by
        simpa [asUrl, Uri.mk.injEq] using hf
      simpa [stepDiagOp, DiagState.semanticDiagnosticsReceived, hv, DiagInv, hf, hu]
        using h f

theorem diagInv_run {D : Type} (ops : List (DiagOp D)) :
    ∀ s : DiagState D, s.validate = true → (∀ f, DiagInv f s) →
      (runDiagOps s ops).validate = true ∧ ∀ f, DiagInv f (runDiagOps s ops) := by
  induction ops with
  | nil => intro s hv h; exact ⟨hv, h⟩
  | cons op ops ih =>
    intro s hv h
    have hstep := diagInv_step s op hv h
    simpa [runDiagOps, List.foldl] using ih (stepDiagOp s op) hstep.1 hstep.2

/-- C1: after any interleaving of syntax/semantic deliveries from a fresh
manager (validation enabled throughout), the published list for any file `f`
is the most recently stored semantic list concatenated with the most recently
stored syntax list, missing entries read as empty; in particular
`syntaxReceived "a.ts" [s1]` then `semanticReceived "a.ts" [m1]` publishes
`[m1, s1]` for `a.ts`. -/
theorem diagnosticsMergedPublish {D : Type} :
    (∀ (ops : List (DiagOp D)) (f : String),
      ((runDiagOps (initDiagState D) ops).currentDiagnostics (asUrl f)).getD [] =
        ((runDiagOps (initDiagState D) ops).semanticDiagnostics f).getD [] ++
        ((runDiagOps (initDiagState D) ops).syntaxDiagnostics f).getD [])
    ∧ ∀ s1 m1 : D,
      (runDiagOps (initDiagState D)
        [DiagOp.syntaxR "a.ts" [s1], DiagOp.semanticR "a.ts" [m1]]).currentDiagnostics
          (asUrl "a.ts") = some [m1, s1] := by
  constructor
  · intro ops f
    have h := diagInv_run ops (initDiagState D) rfl (by intro f; simp [DiagInv, initDiagState])
    exact h.2 f
  · intro s1 m1
    rfl

/-- C5: disabling validation (from the enabled state) clears both mappings and
the whole published collection in the same step; while disabled, both receive
operations are no-ops; re-enabling changes only the flag, publishing nothing
retroactively. -/
theorem updateValidateClears {D : Type} (s : DiagState D) (file : String) (d : List D) :
    (s.validate = true →
      (s.updateValidate false).syntaxDiagnostics = (fun _ => none) ∧
      (s.updateValidate false).semanticDiagnostics = (fun _ => none) ∧
      (s.updateValidate false).currentDiagnostics = (fun _ => none) ∧
      (s.updateValidate false).validate = false)
    ∧ (s.validate = false →
      s.syntaxDiagnosticsReceived file d = s ∧ s.semanticDiagnosticsReceived file d = s)
    ∧ (s.validate = false → s.updateValidate true = { s with validate := true }) := by
  refine ⟨?_, ?_, ?_⟩
  · intro hv
    simp [DiagState.updateValidate, hv]
  · intro hv
    constructor
    · simp [DiagState.syntaxDiagnosticsReceived, hv]
    · simp [DiagState.semanticDiagnosticsReceived, hv]
  · intro hv
    simp [DiagState.updateValidate, hv]

theorem updateValidateClearsWitness :
    ((initDiagState Nat).validate = true →
      ((initDiagState Nat).updateValidate false).syntaxDiagnostics = (fun _ => none) ∧
      ((initDiagState Nat).updateValidate false).semanticDiagnostics = (fun _ => none) ∧
      ((initDiagState Nat).updateValidate false).currentDiagnostics = (fun _ => none) ∧
      ((initDiagState Nat).updateValidate false).validate = false)
    ∧ ((initDiagState Nat).validate = false →
      (initDiagState Nat).syntaxDiagnosticsReceived "a.ts" [1] = initDiagState Nat ∧
      (initDiagState Nat).semanticDiagnosticsReceived "a.ts" [1] = initDiagState Nat)
    ∧ ((initDiagState Nat).validate = false →
      (initDiagState Nat).updateValidate true = { initDiagState Nat with validate := true }) :=
  updateValidateClears (initDiagState Nat) "a.ts" [1]

/-- C7: `configFileDiagnosticsReceived` publishes directly and `delete` removes
directly under the URI derived from the file, with no validation gate (the two
operations never consult the `_validate` flag, so this holds for every state,
enabled or disabled). -/
theorem configAndDeleteBypassValidate {D : Type} (s : DiagState D)
    (file : String) (d : List D) :
    (s.configFileDiagnosticsReceived file d).currentDiagnostics (asUrl file) = some d
    ∧ (s.delete file).currentDiagnostics (asUrl file) = none
    ∧ (s.configFileDiagnosticsReceived file d).validate = s.validate
    ∧ (s.delete file).validate = s.validate := by
  refine ⟨?_, ?_, rfl, rfl⟩
  · simp [DiagState.configFileDiagnosticsReceived]
  · simp [DiagState.delete]

/-- C10: a syntax delivery for `f` leaves the semantic mapping untouched, the
syntax entry of any other file untouched, and the published collection
untouched at every URI other than the one derived from `f`; symmetrically for
a semantic delivery. -/
theorem receiveFrameEffect {D : Type} (s : DiagState D) (f g : String) (d : List D)
    (hg : g ≠ f) (u : Uri) (hu : u ≠ asUrl f) :
    (s.syntaxDiagnosticsReceived f d).semanticDiagnostics = s.semanticDiagnostics
    ∧ (s.syntaxDiagnosticsReceived f d).syntaxDiagnostics g = s.syntaxDiagnostics g
    ∧ (s.syntaxDiagnosticsReceived f d).currentDiagnostics u = s.currentDiagnostics u
    ∧ (s.semanticDiagnosticsReceived f d).syntaxDiagnostics = s.syntaxDiagnostics
    ∧ (s.semanticDiagnosticsReceived f d).semanticDiagnostics g = s.semanticDiagnostics g
    ∧ (s.semanticDiagnosticsReceived f d).currentDiagnostics u = s.currentDiagnostics u := by
  by_cases hv : s.validate
  · refine ⟨?_, ?_, ?_, ?_, ?_, ?_⟩ <;>
      simp [DiagState.syntaxDiagnosticsReceived, DiagState.semanticDiagnosticsReceived,
        hv, hg, hu]
  · refine ⟨?_, ?_, ?_, ?_, ?_, ?_⟩ <;>
      simp [DiagState.syntaxDiagnosticsReceived, DiagState.semanticDiagnosticsReceived, hv]

theorem receiveFrameEffectWitness :
    ((initDiagState Nat).syntaxDiagnosticsReceived "a.ts" [1]).semanticDiagnostics =
      (initDiagState Nat).semanticDiagnostics
    ∧ ((initDiagState Nat).syntaxDiagnosticsReceived "a.ts" [1]).syntaxDiagnostics "b.ts" =
      (initDiagState Nat).syntaxDiagnostics "b.ts"
    ∧ ((initDiagState Nat).syntaxDiagnosticsReceived "a.ts" [1]).currentDiagnostics ⟨"b.ts"⟩ =
      (initDiagState Nat).currentDiagnostics ⟨"b.ts"⟩
    ∧ ((initDiagState Nat).semanticDiagnosticsReceived "a.ts" [1]).syntaxDiagnostics =
      (initDiagState Nat).syntaxDiagnostics
    ∧ ((initDiagState Nat).semanticDiagnosticsReceived "a.ts" [1]).semanticDiagnostics "b.ts" =
      (initDiagState Nat).semanticDiagnostics "b.ts"
    ∧ ((initDiagState Nat).semanticDiagnosticsReceived "a.ts" [1]).currentDiagnostics ⟨"b.ts"⟩ =
      (initDiagState Nat).currentDiagnostics ⟨"b.ts"⟩ :=
  receiveFrameEffect (initDiagState Nat) "a.ts" "b.ts" [1] (by decide)
    ⟨"b.ts"⟩ (by simp [asUrl])

/-! ## TagClosing assistant (tagClosing.ts) -/

/-- `vscode.Position` (only equality is used by this feature). -/
structure Position where
  line : Nat
  character : Nat
deriving DecidableEq

/-- `vscode.Range` (only `start` is consulted by this feature). -/
structure Range where
  start : Position
  stop : Position
deriving DecidableEq

/-- `vscode.TextDocumentContentChangeEvent`: the replaced range, the length of
the replaced text, and the inserted text. -/
structure ContentChange where
  range : Range
  rangeLength : Nat
  text : String
deriving DecidableEq

/-- `Proto.TextInsertion` (the `jsxClosingTag` response body). -/
structure TextInsertion where
  newText : String

/-- One component of a `vscode.SnippetString` as built by `getTagSnippet`. -/
inductive SnippetPart where
  | placeholder (value : String) (index : Nat)
  | text (value : String)
deriving DecidableEq

/-- `TagClosing.getTagSnippet`: an empty final-tabstop placeholder followed by
the returned closing-tag text. -/
def getTagSnippet (closingTag : TextInsertion) : List SnippetPart :=
  [.placeholder "" 0, .text closingTag.newText]

/-- `vscode.Selection` (only the `active` end is consulted). -/
structure Selection where
  anchor : Position
  active : Position
deriving DecidableEq

/-- The visible text editor: its document's identity (object identity modelled
as a numeric id), the document's current version, and the selections. -/
structure Editor where
  document : Nat
  version : Nat
  selections : List Selection
deriving DecidableEq

/-- `TagClosing.getInsertionPositions`: all active selection positions when
some of them equals the triggering position, otherwise just the triggering
position. -/
def getInsertionPositions (editor : Editor) (position : Position) : List Position :=
  let activeSelectionPositions := editor.selections.map (fun s => s.active)
  if activeSelectionPositions.any (fun p => p = position) then activeSelectionPositions
  else [position]

/-- Data captured by the debounce closure when the qualifying edit was
observed: the triggering document, its version at that moment, and the
insertion position computed from the last change. -/
structure RequestInfo where
  document : Nat
  version : Nat
  position : Position
deriving DecidableEq

/-- The inserted snippet together with the positions it is inserted at. -/
structure InsertAction where
  snippet : List SnippetPart
  positions : List Position
deriving DecidableEq

/-- The continuation of `onDidChangeTextDocument`'s timeout after the
`jsxClosingTag` request settles (source lines 96-120): `body = none` covers
both a rejected request and an empty body; then the disposed flag, the active
editor, its document identity and its version are re-checked before the
snippet is inserted. -/
def handleResponse (disposed : Bool) (req : RequestInfo) (body : Option TextInsertion)
    (activeEditor : Option Editor) : Option InsertAction :=
  match body with
  | none => none
  | some body =>
    if disposed then none
    else
      match activeEditor with
      | none => none
      | some activeEditor =>
        if req.document = activeEditor.document ∧ activeEditor.version = req.version then
          some { snippet := getTagSnippet body
                 positions := getInsertionPositions activeEditor req.position }
        else none

/-- C2: a response arriving when the component is disposed, or when the active
document is not the triggering document (or there is no active editor), or
when the version advanced, inserts nothing; and an insertion happens only when
none of these staleness conditions holds. -/
theorem handleResponseStaleGuard (disposed : Bool) (req : RequestInfo)
    (body : Option TextInsertion) (activeEditor : Option Editor) :
    ((disposed = true ∨ (∀ ed, activeEditor = some ed →
        ed.document ≠ req.document ∨ ed.version ≠ req.version)) →
      handleResponse disposed req body activeEditor = none)
    ∧ (∀ a, handleResponse disposed req body activeEditor = some a →
      disposed = false ∧ ∃ ed, activeEditor = some ed ∧
        ed.document = req.document ∧ ed.version = req.version) := by
  constructor
  · intro h
    match body with
    | none => rfl
    | some b =>
      cases h with
      | inl hd => simp [handleResponse, hd]
      | inr hstale =>
        match hae : activeEditor with
        | none => simp [handleResponse]
        | some ed =>
          have := hstale ed rfl
          by_cases hd : disposed
          · simp [handleResponse, hd]
          · simp [handleResponse, hd]
            intro hdoc hver
            rcases this with h1 | h1 <;> simp [hdoc, hver] at h1
  · intro a h
    match body with
    | none => simp [handleResponse] at h
    | some b =>
      by_cases hd : disposed
      · simp [handleResponse, hd] at h
      · match hae : activeEditor with
        | none => simp [handleResponse, hd, hae] at h
        | some ed =>
          simp only [handleResponse, hd, if_false, hae] at h
          by_cases hc : req.document = ed.document ∧ ed.version = req.version
          · exact ⟨by simpa using hd, ed, rfl, hc.1.symm, hc.2⟩
          · simp [hc] at h

theorem handleResponseStaleGuardWitness :
    handleResponse true ⟨0, 0, ⟨0, 0⟩⟩ none none = none
    ∧ (false = false ∧ ∃ ed, (some (⟨0, 0, [⟨⟨0, 0⟩, ⟨0, 0⟩⟩]⟩ : Editor)) = some ed ∧
        ed.document = (0 : Nat) ∧ ed.version = (0 : Nat)) :=
  ⟨(handleResponseStaleGuard true ⟨0, 0, ⟨0, 0⟩⟩ none none).1 (Or.inl rfl),
   (handleResponseStaleGuard false ⟨0, 0, ⟨0, 0⟩⟩ (some ⟨"x"⟩)
      (some ⟨0, 0, [⟨⟨0, 0⟩, ⟨0, 0⟩⟩]⟩)).2
     ⟨getTagSnippet ⟨"x"⟩, [⟨0, 0⟩]⟩ rfl⟩

/-- Lifecycle status of a `setTimeout` timer in the host environment. -/
inductive TimerStatus where
  | live
  | cleared
  | fired
deriving DecidableEq

/-- Lifecycle status of a `vscode.CancellationTokenSource`. -/
inductive TokenStatus where
  | live
  | cancelled
deriving DecidableEq

/-- The `TagClosing` component state together with the host environment's view
of every timer and token it ever allocated (fresh ids are allocated in
sequence; `timerStatus`/`tokenStatus` are meaningful below the respective
allocation counters). -/
structure Sys where
  disposed : Bool
  timeoutId : Option Nat
  cancelId : Option Nat
  nextTimer : Nat
  timerStatus : Nat → TimerStatus
  nextToken : Nat
  tokenStatus : Nat → TokenStatus

/-- A freshly constructed `TagClosing`. -/
def initSys : Sys :=
  { disposed := false
    timeoutId := none
    cancelId := none
    nextTimer := 0
    timerStatus := fun _ => .cleared
    nextToken := 0
    tokenStatus := fun _ => .cancelled }

/-- Source lines 61-63: `clearTimeout(this._timeout)` — the timer referenced
by `this._timeout` stops being live, but the field itself is not reset. -/
def clearPendingTimeout (s : Sys) : Sys :=
  match s.timeoutId with
  | none => s
  | some id =>
    { s with timerStatus := fun i => if i = id then .cleared else s.timerStatus i }

/-- Source lines 65-69: cancel and dispose `this._cancel`, then reset it. -/
def cancelAndDisposeToken (s : Sys) : Sys :=
  match s.cancelId with
  | none => s
  | some id =>
    { s with tokenStatus := fun i => if i = id then .cancelled else s.tokenStatus i
             cancelId := none }

/-- Source lines 84 and 121: `this._timeout = setTimeout(..., 100)` — allocate
a fresh live timer and point `this._timeout` at it. -/
def armTimeout (s : Sys) : Sys :=
  { s with timerStatus := fun i => if i = s.nextTimer then .live else s.timerStatus i
           timeoutId := some s.nextTimer
           nextTimer := s.nextTimer + 1 }

/-- Source lines 71-80: the trigger-shape check on the last change of the
batch — a pure insertion (`rangeLength = 0`) whose last character is `>` or
`/` and whose second-to-last character is not `>` (JS string indexing out of
range yields `undefined`, modelled by `none`). -/
def lastChangeTriggers (lastChange : ContentChange) : Bool :=
  let chars := lastChange.text.toList
  let lastCharacter := chars.getLast?
  if lastChange.rangeLength > 0 ∨ (lastCharacter ≠ some '>' ∧ lastCharacter ≠ some '/') then
    false
  else
    let secondToLastCharacter := chars.dropLast.getLast?
    if secondToLastCharacter = some '>' then false else true

/-- `TagClosing.onDidChangeTextDocument` (source lines 47-122), up to arming
the debounce timer.  `active` is the active editor's document (if any), and
`path` is the external client's `toPath` result for the changed document's
URI. -/
def onDidChangeTextDocument (s : Sys) (document : Nat) (active : Option Nat)
    (path : Option String) (changes : List ContentChange) : Sys :=
  if active ≠ some document ∨ changes = [] then s
  else
    match path with
    | none => s
    | some _ =>
      let s1 := cancelAndDisposeToken (clearPendingTimeout s)
      match changes.getLast? with
      | none => s1
      | some lastChange =>
        if lastChangeTriggers lastChange then armTimeout s1 else s1

/-- The debounce timer firing (the `setTimeout` callback, source lines 84-97
up to the request being issued): the fired timer is forgotten, and unless the
component was disposed a fresh cancellation token is created for the request. -/
def fireTimeout (s : Sys) : Sys :=
  match s.timeoutId with
  | none => s
  | some id =>
    if s.timerStatus id = .live then
      let s1 := { s with
        timerStatus := fun i => if i = id then .fired else s.timerStatus i
        timeoutId := none }
      if s1.disposed then s1
      else
        { s1 with
            tokenStatus := fun i => if i = s1.nextToken then .live else s1.tokenStatus i
            cancelId := some s1.nextToken
            nextToken := s1.nextToken + 1 }
    else s

/-- Source lines 35-38 (also line 85's effect on the field): stop the pending
timer, if any, and reset `this._timeout`. -/
def clearTimeoutStop (s : Sys) : Sys :=
  match s.timeoutId with
  | none => s
  | some id =>
    { s with timerStatus := fun i => if i = id then .cleared else s.timerStatus i
             timeoutId := none }

/-- Source lines 40-44: cancel and dispose `this._cancel`, if any, and reset
the field. -/
def cancelStop (s : Sys) : Sys :=
  match s.cancelId with
  | none => s
  | some tk =>
    { s with tokenStatus := fun i => if i = tk then .cancelled else s.tokenStatus i
             cancelId := none }

/-- `TagClosing.dispose` (source lines 30-45): set the disposed flag, stop the
pending timer, cancel the held token. -/
def disposeTagClosing (s : Sys) : Sys :=
  cancelStop (clearTimeoutStop { s with disposed := true })

/-- The events driving a `TagClosing` instance. -/
inductive TagEvent where
  | change (document : Nat) (active : Option Nat) (path : Option String)
      (changes : List ContentChange)
  | fire
  | dispose

/-- One event step. -/
def stepTagEvent (s : Sys) : TagEvent → Sys
  | .change document active path changes =>
      onDidChangeTextDocument s document active path changes
  | .fire => fireTimeout s
  | .dispose => disposeTagClosing s

/-- Run a sequence of events. -/
def runTagEvents (s : Sys) (evs : List TagEvent) : Sys :=
  evs.foldl stepTagEvent s

/-- The reachable-state invariant of `TagClosing`: every live timer is the one
referenced by `this._timeout`, every live token is the one referenced by
`this._cancel`, a live referenced timer implies no token is held, and the
references are within the allocated ranges. -/
structure SysInv (s : Sys) : Prop where
  timerPointed : ∀ i, s.timerStatus i = .live → s.timeoutId = some i
  tokenPointed : ∀ i, s.tokenStatus i = .live → s.cancelId = some i
  liveTimerNoToken : ∀ i, s.timeoutId = some i → s.timerStatus i = .live → s.cancelId = none
  timeoutLt : ∀ i, s.timeoutId = some i → i < s.nextTimer
  cancelLt : ∀ i, s.cancelId = some i → i < s.nextToken

theorem sysInv_init : SysInv initSys := by
  refine ⟨?_, ?_, ?_, ?_, ?_⟩ <;> intro i h <;> simp [initSys] at h ⊢

@[simp] theorem clearPendingTimeout_disposed (s : Sys) :
    (clearPendingTimeout s).disposed = s.disposed := by
  cases h : s.timeoutId <;> simp [clearPendingTimeout, h]

@[simp] theorem clearPendingTimeout_timeoutId (s : Sys) :
    (clearPendingTimeout s).timeoutId = s.timeoutId := by
  cases h : s.timeoutId <;> simp [clearPendingTimeout, h]

@[simp] theorem clearPendingTimeout_cancelId (s : Sys) :
    (clearPendingTimeout s).cancelId = s.cancelId := by
  cases h : s.timeoutId <;> simp [clearPendingTimeout, h]

@[simp] theorem clearPendingTimeout_nextTimer (s : Sys) :
    (clearPendingTimeout s).nextTimer = s.nextTimer := by
  cases h : s.timeoutId <;> simp [clearPendingTimeout, h]

@[simp] theorem clearPendingTimeout_nextToken (s : Sys) :
    (clearPendingTimeout s).nextToken = s.nextToken := by
  cases h : s.timeoutId <;> simp [clearPendingTimeout, h]

@[simp] theorem clearPendingTimeout_tokenStatus (s : Sys) (i : Nat) :
    (clearPendingTimeout s).tokenStatus i = s.tokenStatus i := by
  cases h : s.timeoutId <;> simp [clearPendingTimeout, h]

theorem clearPendingTimeout_timerStatus (s : Sys) (i : Nat) :
    (clearPendingTimeout s).timerStatus i =
      if s.timeoutId = some i then .cleared else s.timerStatus i := by
  cases h : s.timeoutId with
  | none => simp [clearPendingTimeout, h]
  | some id => simp [clearPendingTimeout, h, eq_comm]

@[simp] theorem cancelAndDisposeToken_disposed (s : Sys) :
    (cancelAndDisposeToken s).disposed = s.disposed := by
  cases h : s.cancelId <;> simp [cancelAndDisposeToken, h]

@[simp] theorem cancelAndDisposeToken_timeoutId (s : Sys) :
    (cancelAndDisposeToken s).timeoutId = s.timeoutId := by
  cases h : s.cancelId <;> simp [cancelAndDisposeToken, h]

@[simp] theorem cancelAndDisposeToken_cancelId (s : Sys) :
    (cancelAndDisposeToken s).cancelId = none := by
  cases h : s.cancelId <;> simp [cancelAndDisposeToken, h]

@[simp] theorem cancelAndDisposeToken_nextTimer (s : Sys) :
    (cancelAndDisposeToken s).nextTimer = s.nextTimer := by
  cases h : s.cancelId <;> simp [cancelAndDisposeToken, h]

@[simp] theorem cancelAndDisposeToken_nextToken (s : Sys) :
    (cancelAndDisposeToken s).nextToken = s.nextToken := by
  cases h : s.cancelId <;> simp [cancelAndDisposeToken, h]

@[simp] theorem cancelAndDisposeToken_timerStatus (s : Sys) (i : Nat) :
    (cancelAndDisposeToken s).timerStatus i = s.timerStatus i := by
  cases h : s.cancelId <;> simp [cancelAndDisposeToken, h]

theorem cancelAndDisposeToken_tokenStatus (s : Sys) (i : Nat) :
    (cancelAndDisposeToken s).tokenStatus i =
      if s.cancelId = some i then .cancelled else s.tokenStatus i := by
  cases h : s.cancelId with
  | none => simp [cancelAndDisposeToken, h]
  | some id => simp [cancelAndDisposeToken, h, eq_comm]

@[simp] theorem armTimeout_disposed (s : Sys) :
    (armTimeout s).disposed = s.disposed := rfl

@[simp] theorem armTimeout_timeoutId (s : Sys) :
    (armTimeout s).timeoutId = some s.nextTimer := rfl

@[simp] theorem armTimeout_cancelId (s : Sys) :
    (armTimeout s).cancelId = s.cancelId := rfl

@[simp] theorem armTimeout_nextTimer (s : Sys) :
    (armTimeout s).nextTimer = s.nextTimer + 1 := rfl

@[simp] theorem armTimeout_nextToken (s : Sys) :
    (armTimeout s).nextToken = s.nextToken := rfl

@[simp] theorem armTimeout_tokenStatus (s : Sys) (i : Nat) :
    (armTimeout s).tokenStatus i = s.tokenStatus i := rfl

theorem armTimeout_timerStatus (s : Sys) (i : Nat) :
    (armTimeout s).timerStatus i =
      if i = s.nextTimer then .live else s.timerStatus i := rfl

theorem preempt_noLiveTimer (s : Sys) (h : SysInv s) (i : Nat) :
    (cancelAndDisposeToken (clearPendingTimeout s)).timerStatus i ≠ .live := by
  intro hlive
  rw [cancelAndDisposeToken_timerStatus, clearPendingTimeout_timerStatus] at hlive
  by_cases hp : s.timeoutId = some i
  · simp [hp] at hlive
  · rw [if_neg hp] at hlive
    exact hp (h.timerPointed i hlive)

theorem preempt_noLiveToken (s : Sys) (h : SysInv s) (i : Nat) :
    (cancelAndDisposeToken (clearPendingTimeout s)).tokenStatus i ≠ .live := by
  intro hlive
  rw [cancelAndDisposeToken_tokenStatus, clearPendingTimeout_cancelId,
    clearPendingTimeout_tokenStatus] at hlive
  by_cases hp : s.cancelId = some i
  · simp [hp] at hlive
  · rw [if_neg hp] at hlive
    exact hp (h.tokenPointed i hlive)

theorem sysInv_preempted (s : Sys) (h : SysInv s) :
    SysInv (cancelAndDisposeToken (clearPendingTimeout s)) := by
  refine ⟨?_, ?_, ?_, ?_, ?_⟩
  · intro i hl
    exact absurd hl (preempt_noLiveTimer s h i)
  · intro i hl
    exact absurd hl (preempt_noLiveToken s h i)
  · intro i _ _
    simp
  · intro i hi
    simp only [cancelAndDisposeToken_timeoutId, clearPendingTimeout_timeoutId] at hi
    simpa using h.timeoutLt i hi
  · intro i hi
    simp at hi

theorem sysInv_armPreempted (s : Sys) (h : SysInv s) :
    SysInv (armTimeout (cancelAndDisposeToken (clearPendingTimeout s))) := by
  refine ⟨?_, ?_, ?_, ?_, ?_⟩
  · intro i hl
    rw [armTimeout_timerStatus] at hl
    by_cases hi : i = (cancelAndDisposeToken (clearPendingTimeout s)).nextTimer
    · rw [armTimeout_timeoutId, hi]
    · rw [if_neg hi] at hl
      exact absurd hl (preempt_noLiveTimer s h i)
  · intro i hl
    rw [armTimeout_tokenStatus] at hl
    exact absurd hl (preempt_noLiveToken s h i)
  · intro i _ _
    simp
  · intro i hi
    rw [armTimeout_timeoutId] at hi
    rw [armTimeout_nextTimer]
    have := Option.some.inj hi
    omega
  · intro i hi
    simp at hi

theorem sysInv_change (s : Sys) (h : SysInv s) (document : Nat) (active : Option Nat)
    (path : Option String) (changes : List ContentChange) :
    SysInv (onDidChangeTextDocument s document active path changes) := by
  unfold onDidChangeTextDocument
  split
  · exact h
  · split
    · exact h
    · dsimp only
      split
      · exact sysInv_preempted s h
      · split
        · exact sysInv_armPreempted s h
        · exact sysInv_preempted s h

theorem noLiveTimer_ofCleared (s : Sys) (h : SysInv s) (id : Nat)
    (htid : s.timeoutId = some id) (i : Nat) :
    (if i = id then TimerStatus.cleared else s.timerStatus i) ≠ TimerStatus.live := by
  intro hl
  by_cases hi : i = id
  · simp [hi] at hl
  · rw [if_neg hi] at hl
    have := h.timerPointed i hl
    rw [htid] at this
    exact hi (Option.some.inj this).symm

theorem noLiveTimer_ofFired (s : Sys) (h : SysInv s) (id : Nat)
    (htid : s.timeoutId = some id) (i : Nat) :
    (if i = id then TimerStatus.fired else s.timerStatus i) ≠ TimerStatus.live := by
  intro hl
  by_cases hi : i = id
  · simp [hi] at hl
  · rw [if_neg hi] at hl
    have := h.timerPointed i hl
    rw [htid] at this
    exact hi (Option.some.inj this).symm

theorem noLiveTimer_ofNone (s : Sys) (h : SysInv s) (htid : s.timeoutId = none) (i : Nat) :
    s.timerStatus i ≠ TimerStatus.live := by
  intro hl
  have := h.timerPointed i hl
  rw [htid] at this
  exact Option.noConfusion this

theorem noLiveToken_ofCancelled (s : Sys) (h : SysInv s) (tk : Nat)
    (hcid : s.cancelId = some tk) (i : Nat) :
    (if i = tk then TokenStatus.cancelled else s.tokenStatus i) ≠ TokenStatus.live := by
  intro hl
  by_cases hi : i = tk
  · simp [hi] at hl
  · rw [if_neg hi] at hl
    have := h.tokenPointed i hl
    rw [hcid] at this
    exact hi (Option.some.inj this).symm

theorem noLiveToken_ofNone (s : Sys) (h : SysInv s) (hcid : s.cancelId = none) (i : Nat) :
    s.tokenStatus i ≠ TokenStatus.live := by
  intro hl
  have := h.tokenPointed i hl
  rw [hcid] at this
  exact Option.noConfusion this

theorem sysInv_fire (s : Sys) (h : SysInv s) : SysInv (fireTimeout s) := by
  unfold fireTimeout
  split
  · exact h
  · rename_i id htid
    split
    · rename_i hlive
      have hcnone : s.cancelId = none := h.liveTimerNoToken id htid hlive
      dsimp only
      split
      · refine ⟨?_, ?_, ?_, ?_, ?_⟩
        · intro i hl
          exact absurd hl (noLiveTimer_ofFired s h id htid i)
        · intro i hl
          exact absurd (h.tokenPointed i hl) (by simp [hcnone])
        · intro i hti
          exact Option.noConfusion hti
        · intro i hti
          exact Option.noConfusion hti
        · intro i hci
          rw [hcnone] at hci
          exact Option.noConfusion hci
      · refine ⟨?_, ?_, ?_, ?_, ?_⟩
        · intro i hl
          exact absurd hl (noLiveTimer_ofFired s h id htid i)
        · intro i hl
          dsimp only at hl ⊢
          by_cases hi : i = s.nextToken
          · rw [hi]
          · rw [if_neg hi] at hl
            exact absurd hl (noLiveToken_ofNone s h hcnone i)
        · intro i hti
          exact Option.noConfusion hti
        · intro i hti
          exact Option.noConfusion hti
        · intro i hci
          dsimp only at hci ⊢
          have := Option.some.inj hci
          omega
    · exact h

@[simp] theorem clearTimeoutStop_disposed (s : Sys) :
    (clearTimeoutStop s).disposed = s.disposed := by
  cases h : s.timeoutId <;> simp [clearTimeoutStop, h]

@[simp] theorem clearTimeoutStop_timeoutId (s : Sys) :
    (clearTimeoutStop s).timeoutId = none := by
  cases h : s.timeoutId <;> simp [clearTimeoutStop, h]

@[simp] theorem clearTimeoutStop_cancelId (s : Sys) :
    (clearTimeoutStop s).cancelId = s.cancelId := by
  cases h : s.timeoutId <;> simp [clearTimeoutStop, h]

@[simp] theorem clearTimeoutStop_nextTimer (s : Sys) :
    (clearTimeoutStop s).nextTimer = s.nextTimer := by
  cases h : s.timeoutId <;> simp [clearTimeoutStop, h]

@[simp] theorem clearTimeoutStop_nextToken (s : Sys) :
    (clearTimeoutStop s).nextToken = s.nextToken := by
  cases h : s.timeoutId <;> simp [clearTimeoutStop, h]

@[simp] theorem clearTimeoutStop_tokenStatus (s : Sys) (i : Nat) :
    (clearTimeoutStop s).tokenStatus i = s.tokenStatus i := by
  cases h : s.timeoutId <;> simp [clearTimeoutStop, h]

theorem clearTimeoutStop_timerStatus (s : Sys) (i : Nat) :
    (clearTimeoutStop s).timerStatus i =
      if s.timeoutId = some i then .cleared else s.timerStatus i := by
  cases h : s.timeoutId with
  | none => simp [clearTimeoutStop, h]
  | some id => simp [clearTimeoutStop, h, eq_comm]

@[simp] theorem cancelStop_disposed (s : Sys) :
    (cancelStop s).disposed = s.disposed := by
  cases h : s.cancelId <;> simp [cancelStop, h]

@[simp] theorem cancelStop_timeoutId (s : Sys) :
    (cancelStop s).timeoutId = s.timeoutId := by
  cases h : s.cancelId <;> simp [cancelStop, h]

@[simp] theorem cancelStop_cancelId (s : Sys) :
    (cancelStop s).cancelId = none := by
  cases h : s.cancelId <;> simp [cancelStop, h]

@[simp] theorem cancelStop_nextTimer (s : Sys) :
    (cancelStop s).nextTimer = s.nextTimer := by
  cases h : s.cancelId <;> simp [cancelStop, h]

@[simp] theorem cancelStop_nextToken (s : Sys) :
    (cancelStop s).nextToken = s.nextToken := by
  cases h : s.cancelId <;> simp [cancelStop, h]

@[simp] theorem cancelStop_timerStatus (s : Sys) (i : Nat) :
    (cancelStop s).timerStatus i = s.timerStatus i := by
  cases h : s.cancelId <;> simp [cancelStop, h]

theorem cancelStop_tokenStatus (s : Sys) (i : Nat) :
    (cancelStop s).tokenStatus i =
      if s.cancelId = some i then .cancelled else s.tokenStatus i := by
  cases h : s.cancelId with
  | none => simp [cancelStop, h]
  | some tk => simp [cancelStop, h, eq_comm]

theorem sysInv_dispose (s : Sys) (h : SysInv s) : SysInv (disposeTagClosing s) := by
  unfold disposeTagClosing
  refine ⟨?_, ?_, ?_, ?_, ?_⟩
  · intro i hl
    rw [cancelStop_timerStatus, clearTimeoutStop_timerStatus] at hl
    by_cases hp : s.timeoutId = some i
    · rw [if_pos hp] at hl
      exact absurd hl (by decide)
    · rw [if_neg hp] at hl
      exact absurd (h.timerPointed i hl) hp
  · intro i hl
    rw [cancelStop_tokenStatus, clearTimeoutStop_cancelId, clearTimeoutStop_tokenStatus] at hl
    by_cases hp : s.cancelId = some i
    · rw [if_pos hp] at hl
      exact absurd hl (by decide)
    · rw [if_neg hp] at hl
      exact absurd (h.tokenPointed i hl) hp
  · intro i hti
    rw [cancelStop_timeoutId, clearTimeoutStop_timeoutId] at hti
    exact Option.noConfusion hti
  · intro i hti
    rw [cancelStop_timeoutId, clearTimeoutStop_timeoutId] at hti
    exact Option.noConfusion hti
  · intro i hci
    rw [cancelStop_cancelId] at hci
    exact Option.noConfusion hci

theorem sysInv_step (s : Sys) (h : SysInv s) (ev : TagEvent) : SysInv (stepTagEvent s ev) := by
  cases ev with
  | change document active path changes => exact sysInv_change s h document active path changes
  | fire => exact sysInv_fire s h
  | dispose => exact sysInv_dispose s h

theorem sysInv_run (evs : List TagEvent) :
    ∀ s : Sys, SysInv s → SysInv (runTagEvents s evs) := by
  induction evs with
  | nil => intro s h; exact h
  | cons e evs ih => intro s h; exact ih (stepTagEvent s e) (sysInv_step s h e)

theorem preempted_clears (s : Sys) (id : Nat) (hid : s.timeoutId = some id) :
    (cancelAndDisposeToken (clearPendingTimeout s)).timerStatus id = TimerStatus.cleared := by
  rw [cancelAndDisposeToken_timerStatus, clearPendingTimeout_timerStatus, if_pos hid]

theorem preempted_cancels (s : Sys) (tk : Nat) (htk : s.cancelId = some tk) :
    (cancelAndDisposeToken (clearPendingTimeout s)).tokenStatus tk = TokenStatus.cancelled := by
  rw [cancelAndDisposeToken_tokenStatus, clearPendingTimeout_cancelId, if_pos htk]

theorem arm_iff (s : Sys) (document : Nat) (active : Option Nat) (path : Option String)
    (changes : List ContentChange) :
    (onDidChangeTextDocument s document active path changes).nextTimer = s.nextTimer + 1 ↔
      (active = some document ∧ changes ≠ [] ∧ path.isSome ∧
        ∃ lc, changes.getLast? = some lc ∧ lastChangeTriggers lc = true) := by
  unfold onDidChangeTextDocument
  split
  · rename_i hcond
    constructor
    · intro hghost
      omega
    · rintro ⟨hA, hNe, -, -⟩
      rcases hcond with hc | hc
      · exact absurd hA hc
      · exact absurd hc hNe
  · rename_i hcond
    push_neg at hcond
    split
    · constructor
      · intro hghost
        omega
      · rintro ⟨-, -, hps, -⟩
        simp at hps
    · rename_i fp
      dsimp only
      split
      · rename_i hlast
        constructor
        · intro hghost
          simp only [cancelAndDisposeToken_nextTimer, clearPendingTimeout_nextTimer] at hghost
          omega
        · rintro ⟨-, -, -, lc, hlc, -⟩
          rw [hlast] at hlc
          exact Option.noConfusion hlc
      · rename_i lc hlast
        split
        · rename_i htrig
          constructor
          · intro _
            exact ⟨hcond.1, hcond.2, by simp, lc, hlast, htrig⟩
          · intro _
            simp
        · rename_i htrig
          constructor
          · intro hghost
            simp only [cancelAndDisposeToken_nextTimer, clearPendingTimeout_nextTimer] at hghost
            omega
          · rintro ⟨-, -, -, lc2, hlc2, htrig2⟩
            rw [hlast] at hlc2
            cases Option.some.inj hlc2
            exact absurd htrig2 (by simpa using htrig)

theorem armed_result (s : Sys) (document : Nat) (active : Option Nat) (path : Option String)
    (changes : List ContentChange)
    (h : (onDidChangeTextDocument s document active path changes).nextTimer = s.nextTimer + 1) :
    (onDidChangeTextDocument s document active path changes).timeoutId = some s.nextTimer
    ∧ (onDidChangeTextDocument s document active path changes).timerStatus s.nextTimer =
      TimerStatus.live := by
  revert h
  unfold onDidChangeTextDocument
  split
  · intro hghost
    omega
  · split
    · intro hghost
      omega
    · dsimp only
      split
      · intro hghost
        simp only [cancelAndDisposeToken_nextTimer, clearPendingTimeout_nextTimer] at hghost
        omega
      · split
        · intro _
          constructor
          · simp
          · rw [armTimeout_timerStatus]
            simp
        · intro hghost
          simp only [cancelAndDisposeToken_nextTimer, clearPendingTimeout_nextTimer] at hghost
          omega

theorem change_preempts (s : Sys) (document : Nat) (active : Option Nat)
    (path : Option String) (changes : List ContentChange)
    (hA : active = some document) (hNe : changes ≠ []) (fp : String) (hP : path = some fp)
    (hInv : SysInv s) :
    (∀ id, s.timeoutId = some id →
      (onDidChangeTextDocument s document active path changes).timerStatus id =
        TimerStatus.cleared)
    ∧ ∀ tk, s.cancelId = some tk →
      (onDidChangeTextDocument s document active path changes).tokenStatus tk =
        TokenStatus.cancelled
      ∧ (onDidChangeTextDocument s document active path changes).cancelId = none := by
  unfold onDidChangeTextDocument
  split
  · rename_i hcond
    rcases hcond with hc | hc
    · exact absurd hA hc
    · exact absurd hc hNe
  · split
    · exact Option.noConfusion hP
    · dsimp only
      split
      · refine ⟨fun id hid => preempted_clears s id hid, fun tk htk => ?_⟩
        exact ⟨preempted_cancels s tk htk, by simp⟩
      · split
        · refine ⟨fun id hid => ?_, fun tk htk => ?_⟩
          · have hlt := hInv.timeoutLt id hid
            have hne : id ≠ (cancelAndDisposeToken (clearPendingTimeout s)).nextTimer := by
              simp only [cancelAndDisposeToken_nextTimer, clearPendingTimeout_nextTimer]
              omega
            rw [armTimeout_timerStatus, if_neg hne]
            exact preempted_clears s id hid
          · refine ⟨?_, ?_⟩
            · rw [armTimeout_tokenStatus]
              exact preempted_cancels s tk htk
            · rw [armTimeout_cancelId]
              simp
        · refine ⟨fun id hid => preempted_clears s id hid, fun tk htk => ?_⟩
          exact ⟨preempted_cancels s tk htk, by simp⟩

/-- A concrete state with one armed (live) debounce timer and no token. -/
def exampleArmed : Sys := armTimeout initSys

theorem sysInv_exampleArmed : SysInv exampleArmed :=
  sysInv_armPreempted initSys sysInv_init

/-- A pure one-character insertion of a slash: passes the trigger-shape check. -/
def triggerChange : ContentChange :=
  { range := ⟨⟨0, 4⟩, ⟨0, 4⟩⟩, rangeLength := 0, text := "/" }

/-- A pure one-character insertion of a letter: fails the trigger-shape check. -/
def nonTriggerChange : ContentChange :=
  { range := ⟨⟨0, 0⟩, ⟨0, 0⟩⟩, rangeLength := 0, text := "a" }

/-- C3 counterexample: the claim fails on the code at two concrete inputs.
First, in a state with an armed timer, a batch in the active document whose
last change fails the trigger check (the letter insertion) does NOT leave the
previously armed timer pending — the code cancels it before the trigger-shape
check (source clears at lines 61-69, checks shape only at lines 71-80).
Second, a batch that satisfies all the trigger conditions named by the claim
but whose document has no client file path arms no timer, so the claimed
"if and only if" also fails in the right-to-left direction. -/
theorem triggerCancelOrderCex :
    (exampleArmed.timerStatus 0 = TimerStatus.live
      ∧ lastChangeTriggers nonTriggerChange = false
      ∧ (onDidChangeTextDocument exampleArmed 0 (some 0) (some "a.tsx")
          [nonTriggerChange]).timerStatus 0 = TimerStatus.cleared)
    ∧ (lastChangeTriggers triggerChange = true
      ∧ (onDidChangeTextDocument exampleArmed 0 (some 0) none
          [triggerChange]).nextTimer = exampleArmed.nextTimer) := by
  decide

/-- C3 (amended): a new debounce timer is armed if and only if the batch
targets the active document, is non-empty, the document resolves to a client
file path, and the last change passes the trigger-shape check; and
cancellation of a pending timer/token is performed as soon as the
active-document, non-emptiness and file-path checks pass — before the
trigger-shape check — so even a batch failing the trigger check cancels a
previously armed timer and token. -/
theorem changeTriggerAndPreempt (s : Sys) (document : Nat) (active : Option Nat)
    (path : Option String) (changes : List ContentChange) :
    ((onDidChangeTextDocument s document active path changes).nextTimer = s.nextTimer + 1 ↔
      (active = some document ∧ changes ≠ [] ∧ path.isSome ∧
        ∃ lc, changes.getLast? = some lc ∧ lastChangeTriggers lc = true))
    ∧ (SysInv s → active = some document → changes ≠ [] → ∀ fp, path = some fp →
      (∀ id, s.timeoutId = some id →
        (onDidChangeTextDocument s document active path changes).timerStatus id =
          TimerStatus.cleared)
      ∧ ∀ tk, s.cancelId = some tk →
        (onDidChangeTextDocument s document active path changes).tokenStatus tk =
          TokenStatus.cancelled) := by
  constructor
  · exact arm_iff s document active path changes
  · intro hInv hA hNe fp hP
    have h := change_preempts s document active path changes hA hNe fp hP hInv
    exact ⟨h.1, fun tk htk => (h.2 tk htk).1⟩

theorem changeTriggerAndPreemptWitness :
    ((onDidChangeTextDocument exampleArmed 0 (some 0) (some "a.tsx")
        [nonTriggerChange]).timerStatus 0 = TimerStatus.cleared)
    ∧ ((onDidChangeTextDocument exampleArmed 0 (some 0) (some "a.tsx")
        [triggerChange]).nextTimer = exampleArmed.nextTimer + 1 ↔
      ((some 0 : Option Nat) = some 0 ∧ [triggerChange] ≠ [] ∧
        (some "a.tsx" : Option String).isSome ∧
        ∃ lc, [triggerChange].getLast? = some lc ∧ lastChangeTriggers lc = true)) :=
  ⟨((changeTriggerAndPreempt exampleArmed 0 (some 0) (some "a.tsx") [nonTriggerChange]).2
      sysInv_exampleArmed rfl (by decide) "a.tsx" rfl).1 0 rfl,
   (changeTriggerAndPreempt exampleArmed 0 (some 0) (some "a.tsx") [triggerChange]).1⟩

/-- C6: (1) in every state reachable from a fresh component, at most one timer
and at most one cancellation token are live; (2) whenever a change event arms
a new timer (a qualifying edit, from any invariant-satisfying state), the
previously referenced timer is cleared and no longer referenced and the
previously referenced token is cancelled and no longer referenced — at most
one logical request is ever in flight. -/
theorem singleInflightInvariant :
    (∀ evs : List TagEvent,
      (∀ i j, (runTagEvents initSys evs).timerStatus i = TimerStatus.live →
        (runTagEvents initSys evs).timerStatus j = TimerStatus.live → i = j)
      ∧ (∀ i j, (runTagEvents initSys evs).tokenStatus i = TokenStatus.live →
        (runTagEvents initSys evs).tokenStatus j = TokenStatus.live → i = j))
    ∧ (∀ (s : Sys) (document : Nat) (active : Option Nat) (path : Option String)
        (changes : List ContentChange), SysInv s →
      (onDidChangeTextDocument s document active path changes).nextTimer = s.nextTimer + 1 →
      (∀ id, s.timeoutId = some id →
        (onDidChangeTextDocument s document active path changes).timerStatus id =
          TimerStatus.cleared
        ∧ (onDidChangeTextDocument s document active path changes).timeoutId ≠ some id)
      ∧ ∀ tk, s.cancelId = some tk →
        (onDidChangeTextDocument s document active path changes).tokenStatus tk =
          TokenStatus.cancelled
        ∧ (onDidChangeTextDocument s document active path changes).cancelId ≠ some tk) := by
  constructor
  · intro evs
    have hInv := sysInv_run evs initSys sysInv_init
    constructor
    · intro i j hi hj
      have h1 := hInv.timerPointed i hi
      have h2 := hInv.timerPointed j hj
      rw [h1] at h2
      exact Option.some.inj h2
    · intro i j hi hj
      have h1 := hInv.tokenPointed i hi
      have h2 := hInv.tokenPointed j hj
      rw [h1] at h2
      exact Option.some.inj h2
  · intro s document active path changes hInv hArm
    obtain ⟨hA, hNe, hps, -⟩ := (arm_iff s document active path changes).mp hArm
    obtain ⟨fp, hP⟩ := Option.isSome_iff_exists.mp hps
    have hpre := change_preempts s document active path changes hA hNe fp hP hInv
    have hres := armed_result s document active path changes hArm
    constructor
    · intro id hid
      refine ⟨hpre.1 id hid, ?_⟩
      rw [hres.1]
      have := hInv.timeoutLt id hid
      intro hcontra
      have := Option.some.inj hcontra
      omega
    · intro tk htk
      refine ⟨(hpre.2 tk htk).1, ?_⟩
      rw [(hpre.2 tk htk).2]
      exact Option.noConfusion

theorem singleInflightInvariantWitness :
    ((onDidChangeTextDocument exampleArmed 0 (some 0) (some "a.tsx")
        [triggerChange]).timerStatus 0 = TimerStatus.cleared
      ∧ (onDidChangeTextDocument exampleArmed 0 (some 0) (some "a.tsx")
        [triggerChange]).timeoutId ≠ some 0) :=
  (singleInflightInvariant.2 exampleArmed 0 (some 0) (some "a.tsx") [triggerChange]
    sysInv_exampleArmed (by decide)).1 0 rfl

/-- An editor with two cursors: one at the triggering position (0,0) and one
elsewhere at (0,1). -/
def cexEditor : Editor :=
  { document := 0, version := 0
    selections := [⟨⟨0, 0⟩, ⟨0, 0⟩⟩, ⟨⟨0, 1⟩, ⟨0, 1⟩⟩] }

/-- C4 counterexample: with active cursors at (0,0) and (0,1) and triggering
position (0,0), the code inserts at (0,1) as well — a cursor whose active
position differs from the triggering position does receive an insertion,
because as soon as one cursor coincides the code returns all active cursor
positions. -/
theorem insertionPositionsCex :
    getInsertionPositions cexEditor ⟨0, 0⟩ = [⟨0, 0⟩, ⟨0, 1⟩]
    ∧ (⟨0, 1⟩ : Position) ∈ getInsertionPositions cexEditor ⟨0, 0⟩
    ∧ (⟨0, 1⟩ : Position) ≠ (⟨0, 0⟩ : Position) := by
  decide

/-- C4 (amended): when a response passes the stale guard, the snippet built
from the returned text is inserted at all active cursor positions if at least
one of them coincides with the triggering position, and only at the
triggering position otherwise. -/
theorem insertionPositionsSpec (ed : Editor) (pos : Position) :
    ((∃ sel ∈ ed.selections, sel.active = pos) →
      getInsertionPositions ed pos = ed.selections.map (fun sel => sel.active))
    ∧ ((∀ sel ∈ ed.selections, sel.active ≠ pos) → getInsertionPositions ed pos = [pos])
    ∧ (∀ (req : RequestInfo) (b : TextInsertion) (aed : Editor),
        aed.document = req.document → aed.version = req.version →
        handleResponse false req (some b) (some aed) =
          some { snippet := getTagSnippet b
                 positions := getInsertionPositions aed req.position }) := by
  refine ⟨?_, ?_, ?_⟩
  · rintro ⟨sel, hmem, hact⟩
    unfold getInsertionPositions
    rw [if_pos]
    simp only [List.any_eq_true, List.mem_map, decide_eq_true_eq]
    exact ⟨sel.active, ⟨sel, hmem, rfl⟩, hact⟩
  · intro hall
    unfold getInsertionPositions
    rw [if_neg]
    simp only [List.any_eq_true, List.mem_map, decide_eq_true_eq, not_exists, not_and]
    rintro p ⟨sel, hmem, rfl⟩
    exact hall sel hmem
  · intro req b aed hdoc hver
    simp [handleResponse, hdoc, hver]

theorem insertionPositionsSpecWitness :
    getInsertionPositions cexEditor ⟨0, 0⟩ =
      cexEditor.selections.map (fun sel => sel.active) :=
  (insertionPositionsSpec cexEditor ⟨0, 0⟩).1 ⟨⟨⟨0, 0⟩, ⟨0, 0⟩⟩, by decide, rfl⟩

/-! ## Breadcrumbs file picker (src/vs/workbench/browser/parts/editor/breadcrumbsPicker.ts) -/

/-- `IFileStat`, restricted to the fields the picker consults. -/
structure IFileStat where
  name : String
  resource : Uri
  isDirectory : Bool
deriving DecidableEq

/-- `FileSorter.compare`.  The name comparison delegates to the external
`compareFileNames` (vs/base/common/comparers, not part of the excerpt), which
the spec describes only as "case-aware name comparison"; it is therefore kept
abstract as the parameter `compareFileNames`. -/
def FileSorter.compare (compareFileNames : String → String → Int)
    (a b : IFileStat) : Int :=
  if a.isDirectory = b.isDirectory then compareFileNames a.name b.name
  else if a.isDirectory then -1
  else 1

/-- `BreadcrumbsFilePicker._onDidChangeSelection`: reads the first selected
element; a falsy (absent) element or a directory fires nothing, a
non-directory fires its resource.  The return value models the optional
`_onDidPickElement.fire` payload. -/
def BreadcrumbsFilePicker.onDidChangeSelection (selection : List IFileStat) : Option Uri :=
  match selection with
  | [] => none
  | stat :: _ => if stat.isDirectory then none else some stat.resource

/-- C8: a selection whose first element is a non-directory stat emits exactly
one pick event carrying that element's resource URI; a selection whose first
element is a directory emits nothing. -/
theorem filePickerSelectionPick (selection : List IFileStat) (stat : IFileStat)
    (h : selection.head? = some stat) :
    (stat.isDirectory = false →
      BreadcrumbsFilePicker.onDidChangeSelection selection = some stat.resource)
    ∧ (stat.isDirectory = true →
      BreadcrumbsFilePicker.onDidChangeSelection selection = none) := by
  match selection with
  | [] => simp at h
  | first :: rest =>
    have hf : first = stat := by simpa using h
    subst hf
    constructor
    · intro hdir
      simp [BreadcrumbsFilePicker.onDidChangeSelection, hdir]
    · intro hdir
      simp [BreadcrumbsFilePicker.onDidChangeSelection, hdir]

theorem filePickerSelectionPickWitness :
    ((⟨"a.ts", ⟨"file/a.ts"⟩, false⟩ : IFileStat).isDirectory = false →
      BreadcrumbsFilePicker.onDidChangeSelection [⟨"a.ts", ⟨"file/a.ts"⟩, false⟩] =
        some ⟨"file/a.ts"⟩)
    ∧ ((⟨"a.ts", ⟨"file/a.ts"⟩, false⟩ : IFileStat).isDirectory = true →
      BreadcrumbsFilePicker.onDidChangeSelection [⟨"a.ts", ⟨"file/a.ts"⟩, false⟩] = none) :=
  filePickerSelectionPick [⟨"a.ts", ⟨"file/a.ts"⟩, false⟩] ⟨"a.ts", ⟨"file/a.ts"⟩, false⟩ rfl

/-- C9: the sorter puts every directory before every non-directory (negative
comparison one way, positive the other), and compares two elements of the
same kind by the case-aware file-name comparison of their names. -/
theorem fileSorterOrder (compareFileNames : String → String → Int) (a b : IFileStat) :
    (a.isDirectory = true → b.isDirectory = false →
      FileSorter.compare compareFileNames a b = -1)
    ∧ (a.isDirectory = false → b.isDirectory = true →
      FileSorter.compare compareFileNames a b = 1)
    ∧ (a.isDirectory = b.isDirectory →
      FileSorter.compare compareFileNames a b = compareFileNames a.name b.name) := by
  refine ⟨?_, ?_, ?_⟩
  · intro ha hb
    simp [FileSorter.compare, ha, hb]
  · intro ha hb
    simp [FileSorter.compare, ha, hb]
  · intro hab
    simp [FileSorter.compare, hab]

theorem fileSorterOrderWitness :
    ((⟨"src", ⟨"d"⟩, true⟩ : IFileStat).isDirectory = true →
      (⟨"a.ts", ⟨"f"⟩, false⟩ : IFileStat).isDirectory = false →
      FileSorter.compare (fun _ _ => 0) ⟨"src", ⟨"d"⟩, true⟩ ⟨"a.ts", ⟨"f"⟩, false⟩ = -1)
    ∧ ((⟨"src", ⟨"d"⟩, true⟩ : IFileStat).isDirectory = false →
      (⟨"a.ts", ⟨"f"⟩, false⟩ : IFileStat).isDirectory = true →
      FileSorter.compare (fun _ _ => 0) ⟨"src", ⟨"d"⟩, true⟩ ⟨"a.ts", ⟨"f"⟩, false⟩ = 1)
    ∧ ((⟨"src", ⟨"d"⟩, true⟩ : IFileStat).isDirectory =
        (⟨"a.ts", ⟨"f"⟩, false⟩ : IFileStat).isDirectory →
      FileSorter.compare (fun _ _ => 0) ⟨"src", ⟨"d"⟩, true⟩ ⟨"a.ts", ⟨"f"⟩, false⟩ =
        (fun _ _ => (0 : Int)) "src" "a.ts") :=
  fileSorterOrder (fun _ _ => 0) ⟨"src", ⟨"d"⟩, true⟩ ⟨"a.ts", ⟨"f"⟩, false⟩
